import Mathlib

/-!
Shallow embedding of `crates/ra_env/src/lib.rs`: the executable resolver
`get_path_for_executable` and its validation primitive `is_valid_executable`.

The process boundary (environment variables, home directory lookup, child
process spawning) is modelled by an explicit `Sys` record of oracles; the
functions below follow the Rust source line by line over that record.
-/

namespace RaEnv

/-- Result of reading one environment variable, mirroring `std::env::var`:
the variable may be unset, set to a value that is not valid Unicode
(`VarError.NotUnicode`, also an `Err`), or set to a Unicode string (`Ok`). -/
inductive EnvVarResult where
  | unset
  | notUnicode
  | val (s : String)
deriving DecidableEq, Repr

/-- Result of spawning a child process and waiting for it, mirroring
`std::process::Command::output()`: either the OS failed to launch the
process (`Err`), or the process ran to completion with an exit code and
captured stdout/stderr (`Ok(Output)`). -/
inductive SpawnResult where
  | launchError
  | output (exitCode : Int) (stdout stderr : String)
deriving DecidableEq, Repr

/-- The ambient system state a single resolution call observes:
the environment-variable map, the user's home directory (as returned by
`home::home_dir()`), and the process-spawn oracle (program, arguments). -/
structure Sys where
  envVar : String → EnvVarResult
  homeDir : Option String
  spawn : String → List String → SpawnResult

/-- `std::env::var`: returns the value only when the variable is set to a
valid Unicode string; both `unset` and `notUnicode` are `Err` and yield
`none` here, which is exactly what the source's `if let Ok(path)` tests. -/
def readVar (sys : Sys) (name : String) : Option String :=
  match sys.envVar name with
  | .val s => some s
  | _ => none

/-- `char::to_ascii_uppercase` (also `u8`): maps `a`..`z` to `A`..`Z`
(code point minus 32) and leaves every other character unchanged. -/
def to_ascii_upper_char (c : Char) : Char :=
  if 97 ≤ c.toNat ∧ c.toNat ≤ 122 then Char.ofNat (c.toNat - 32) else c

/-- `str::to_ascii_uppercase`: applies `to_ascii_upper_char` to every
character of the string. -/
def to_ascii_uppercase (s : String) : String :=
  ⟨s.data.map to_ascii_upper_char⟩

/-- `is_valid_executable` from the source:
`Command::new(p).arg("--version").output().is_ok()` — spawn the candidate
with the single argument `--version`, and report valid exactly when the
spawn-and-wait succeeded, ignoring the exit code and all output. -/
def is_valid_executable (sys : Sys) (p : String) : Bool :=
  match sys.spawn p ["--version"] with
  | .launchError => false
  | .output _ _ _ => true

/-- Unix `PathBuf::push`: pushing an absolute component (one starting with
the separator `/`) replaces the whole path; otherwise the component is
appended, inserting a `/` separator unless the base is empty or already
ends with one. -/
def pushPath (base comp : String) : String :=
  if comp.data.head? = some '/' then comp
  else if base = "" then comp
  else if base.data.getLast? = some '/' then base ++ comp
  else base ++ "/" ++ comp

/-- The fallback candidate the source builds from `home::home_dir()`:
`path.push(".cargo"); path.push("bin"); path.push(executable_name)`. -/
def cargoBinPath (home executable_name : String) : String :=
  pushPath (pushPath (pushPath home (".cargo")) "bin") executable_name

/-- The `bail!` message for a set-but-invalid override variable. -/
def overrideErrMsg (env_var : String) : String :=
  "`" ++ env_var ++ "` environment variable points to something that's not a valid executable"

/-- The final `bail!` message when no candidate validated. -/
def notFoundMsg (executable_name env_var : String) : String :=
  "Failed to find `" ++ executable_name ++ "` executable. Make sure `" ++
    executable_name ++ "` is in `$PATH`, or set `$" ++ env_var ++
    "` to point to a valid executable."

/-- `get_path_for_executable` from the source, over the `Sys` oracles.
Strategy, short-circuiting: (1) the environment variable named by the
ASCII-uppercased executable name, erroring if set but invalid; (2) the
bare executable name; (3) `<home>/.cargo/bin/<executable_name>` when the
home directory is known; otherwise the not-found error. -/
def get_path_for_executable (sys : Sys) (executable_name : String) : Except String String :=
  let env_var := to_ascii_uppercase executable_name
  match readVar sys env_var with
  | some path =>
    if is_valid_executable sys path then
      Except.ok path
    else
      Except.error (overrideErrMsg env_var)
  | none =>
    if is_valid_executable sys executable_name then
      Except.ok executable_name
    else
      match sys.homeDir with
      | some home =>
        if is_valid_executable sys (cargoBinPath home executable_name) then
          Except.ok (cargoBinPath home executable_name)
        else
          Except.error (notFoundMsg executable_name env_var)
      | none => Except.error (notFoundMsg executable_name env_var)

/-- Instrumented copy of `get_path_for_executable` with the same control
flow, additionally returning the list of candidates passed to
`is_valid_executable`, in call order. Each listed candidate corresponds to
exactly one child-process spawn, since `is_valid_executable` performs one
spawn per call. -/
def get_path_for_executable_traced (sys : Sys) (executable_name : String) :
    Except String String × List String :=
  let env_var := to_ascii_uppercase executable_name
  match readVar sys env_var with
  | some path =>
    if is_valid_executable sys path then
      (Except.ok path, [path])
    else
      (Except.error (overrideErrMsg env_var), [path])
  | none =>
    if is_valid_executable sys executable_name then
      (Except.ok executable_name, [executable_name])
    else
      match sys.homeDir with
      | some home =>
        if is_valid_executable sys (cargoBinPath home executable_name) then
          (Except.ok (cargoBinPath home executable_name),
            [executable_name, cargoBinPath home executable_name])
        else
          (Except.error (notFoundMsg executable_name env_var),
            [executable_name, cargoBinPath home executable_name])
      | none =>
        (Except.error (notFoundMsg executable_name env_var), [executable_name])

/-- The candidates validated during one resolution call. -/
def validationTrace (sys : Sys) (executable_name : String) : List String :=
  (get_path_for_executable_traced sys executable_name).2

/-- Follows the spec's words ("uppercasing every character", including
non-ASCII ones): Unicode simple uppercasing, restricted here to the Basic
Latin and Latin-1 blocks, where it uppercases ASCII `a`..`z` and the
Latin-1 lowercase letters U+00E0..U+00FE (except the division sign U+00F7)
by subtracting 0x20. -/
def specUpperChar (c : Char) : Char :=
  if 97 ≤ c.toNat ∧ c.toNat ≤ 122 then Char.ofNat (c.toNat - 32)
  else if 224 ≤ c.toNat ∧ c.toNat ≤ 254 ∧ c.toNat ≠ 247 then Char.ofNat (c.toNat - 32)
  else c

/-- Follows the spec's words: uppercase every character of the string. -/
def specUppercase (s : String) : String :=
  ⟨s.data.map specUpperChar⟩

/-- System where the override is set and everything spawns successfully,
so every candidate would validate. -/
def sysC1 : Sys :=
  ⟨fun n => if n = "CARGO" then EnvVarResult.val ("/opt/cargo") else EnvVarResult.unset,
   some ("/home/user"), fun _ _ => SpawnResult.output 0 ("") ""⟩

/-- System where the override is set but nothing can be spawned. -/
def sysC2 : Sys :=
  ⟨fun n => if n = "CARGO" then EnvVarResult.val ("/bad/path") else EnvVarResult.unset,
   some ("/home/user"), fun _ _ => SpawnResult.launchError⟩

/-- System whose spawn oracle launches `rustc` but reports exit code 1. -/
def sysC3 : Sys :=
  ⟨fun _ => EnvVarResult.unset, none,
   fun p _ => if p = "rustc" then SpawnResult.output 1 ("") "bad invocation"
              else SpawnResult.launchError⟩

/-- System with no override where only the bare name `cargo` launches. -/
def sysC4 : Sys :=
  ⟨fun _ => EnvVarResult.unset, some ("/home/user"),
   fun p _ => if p = "cargo" then SpawnResult.output 0 ("cargo 1.0") ""
              else SpawnResult.launchError⟩

/-- System with no override where only the fallback path launches. -/
def sysC5 : Sys :=
  ⟨fun _ => EnvVarResult.unset, some ("/home/user"),
   fun p _ => if p = "/home/user/.cargo/bin/cargo" then SpawnResult.output 0 ("") ""
              else SpawnResult.launchError⟩

/-- System with no override where nothing launches. -/
def sysC6 : Sys :=
  ⟨fun _ => EnvVarResult.unset, some ("/home/user"), fun _ _ => SpawnResult.launchError⟩

/-- System with no override, a home directory, and no launchable program. -/
def sysC8 : Sys :=
  ⟨fun _ => EnvVarResult.unset, some ("/home/user"), fun _ _ => SpawnResult.launchError⟩

/-- System with the override set to an unlaunchable path and no home. -/
def sysC8b : Sys :=
  ⟨fun n => if n = "CARGO" then EnvVarResult.val ("/bad/path") else EnvVarResult.unset,
   none, fun _ _ => SpawnResult.launchError⟩

/-- System where the override variable is set to a non-Unicode value and
the bare name launches. -/
def sysC9 : Sys :=
  ⟨fun n => if n = "CARGO" then EnvVarResult.notUnicode else EnvVarResult.unset,
   some ("/home/user"),
   fun p _ => if p = "cargo" then SpawnResult.output 0 ("") ""
              else SpawnResult.launchError⟩

/-- System with no override, no home directory and no launchable program. -/
def sysC10 : Sys :=
  ⟨fun _ => EnvVarResult.unset, none, fun _ _ => SpawnResult.launchError⟩

/-- The instrumented function computes the same result as the plain one. -/
theorem traced_fst (sys : Sys) (executable_name : String) :
    (get_path_for_executable_traced sys executable_name).1 =
      get_path_for_executable sys executable_name := by
  simp only [get_path_for_executable_traced, get_path_for_executable]
  repeat' split
  all_goals rfl

/-- Packing a valid code point and unpacking it round-trips. -/
theorem toNat_ofNat_valid (n : Nat) (h : n.isValidChar) : (Char.ofNat n).toNat = n := by
  rw [Char.ofNat, dif_pos h]
  rfl

/-- On an ASCII lowercase letter, `to_ascii_upper_char` subtracts 32. -/
theorem to_ascii_upper_char_toNat_of_lower (c : Char) (h1 : 97 ≤ c.toNat)
    (h2 : c.toNat ≤ 122) : (to_ascii_upper_char c).toNat = c.toNat - 32 := by
  rw [to_ascii_upper_char, if_pos ⟨h1, h2⟩]
  exact toNat_ofNat_valid _ (Or.inl (by omega))

/-- Outside the ASCII lowercase range, `to_ascii_upper_char` is the identity. -/
theorem to_ascii_upper_char_of_not_lower (c : Char)
    (h : ¬(97 ≤ c.toNat ∧ c.toNat ≤ 122)) : to_ascii_upper_char c = c := by
  rw [to_ascii_upper_char, if_neg h]

/-- ASCII uppercasing of a character is idempotent. -/
theorem to_ascii_upper_char_idem (c : Char) :
    to_ascii_upper_char (to_ascii_upper_char c) = to_ascii_upper_char c := by
  by_cases h : 97 ≤ c.toNat ∧ c.toNat ≤ 122
  · have hn := to_ascii_upper_char_toNat_of_lower c h.1 h.2
    exact to_ascii_upper_char_of_not_lower _ (by omega)
  · rw [to_ascii_upper_char_of_not_lower c h, to_ascii_upper_char_of_not_lower c h]

/-- ASCII uppercasing of a string is idempotent. -/
theorem to_ascii_uppercase_idem (s : String) :
    to_ascii_uppercase (to_ascii_uppercase s) = to_ascii_uppercase s := by
  show String.mk (List.map to_ascii_upper_char (List.map to_ascii_upper_char s.data)) =
    String.mk (List.map to_ascii_upper_char s.data)
  have hf : to_ascii_upper_char ∘ to_ascii_upper_char = to_ascii_upper_char :=
    funext to_ascii_upper_char_idem
  rw [List.map_map, hf]

/-- String concatenation is associative. -/
theorem string_append_assoc (x y z : String) : x ++ y ++ z = x ++ (y ++ z) := by
  cases x with | mk a =>
  cases y with | mk b =>
  cases z with | mk c =>
  show String.mk (a ++ b ++ c) = String.mk (a ++ (b ++ c))
  rw [List.append_assoc]

/-- Claim C1: if the environment variable `uppercase(X)` is set (to a
Unicode value) and that value passes validation, resolution returns
exactly that value, character for character, no matter how the bare name
or the fallback path would validate (the system is unconstrained). -/
theorem claim_C1 (sys : Sys) (name v : String)
    (hset : sys.envVar (to_ascii_uppercase name) = EnvVarResult.val v)
    (hvalid : is_valid_executable sys v = true) :
    get_path_for_executable sys name = Except.ok v := by
  simp [get_path_for_executable, readVar, hset, hvalid]

theorem claim_C1_witness :
    sysC1.envVar (to_ascii_uppercase ("cargo")) = EnvVarResult.val ("/opt/cargo") ∧
    is_valid_executable sysC1 ("/opt/cargo") = true ∧
    is_valid_executable sysC1 ("cargo") = true ∧
    is_valid_executable sysC1 (cargoBinPath ("/home/user") "cargo") = true ∧
    get_path_for_executable sysC1 ("cargo") = Except.ok ("/opt/cargo") :=
  ⟨by decide, by decide, by decide, by decide,
   claim_C1 sysC1 ("cargo") "/opt/cargo" (by decide) (by decide)⟩

/-- Claim C2: if the environment variable `uppercase(X)` is set (to a
Unicode value) that fails validation, resolution errors with a message
naming the override variable, and the validator is invoked exactly once,
on the override value only. -/
theorem claim_C2 (sys : Sys) (name v : String)
    (hset : sys.envVar (to_ascii_uppercase name) = EnvVarResult.val v)
    (hinvalid : is_valid_executable sys v = false) :
    get_path_for_executable sys name =
      Except.error (overrideErrMsg (to_ascii_uppercase name)) ∧
    (∃ a b, overrideErrMsg (to_ascii_uppercase name) =
      a ++ to_ascii_uppercase name ++ b) ∧
    validationTrace sys name = [v] := by
  refine ⟨?_, ⟨"`",
    "` environment variable points to something that's not a valid executable",
    rfl⟩, ?_⟩
  · simp [get_path_for_executable, readVar, hset, hinvalid]
  · simp [validationTrace, get_path_for_executable_traced, readVar, hset, hinvalid]

theorem claim_C2_witness :
    sysC2.envVar (to_ascii_uppercase ("cargo")) = EnvVarResult.val ("/bad/path") ∧
    is_valid_executable sysC2 ("/bad/path") = false ∧
    (get_path_for_executable sysC2 ("cargo") =
      Except.error (overrideErrMsg (to_ascii_uppercase ("cargo"))) ∧
    (∃ a b, overrideErrMsg (to_ascii_uppercase ("cargo")) =
      a ++ to_ascii_uppercase ("cargo") ++ b) ∧
    validationTrace sysC2 ("cargo") = ["/bad/path"]) :=
  ⟨by decide, by decide,
   claim_C2 sysC2 ("cargo") "/bad/path" (by decide) (by decide)⟩

/-- Claim C3: a candidate is judged valid exactly when spawning it with
the single argument `--version` launches and runs to completion; the exit
code and all output are ignored. -/
theorem claim_C3 (sys : Sys) (p : String) :
    is_valid_executable sys p = true ↔
      ∃ code out err, sys.spawn p ["--version"] = SpawnResult.output code out err := by
  unfold is_valid_executable
  cases h : sys.spawn p ["--version"] with
  | launchError =>
    exact iff_of_false (by simp) (by rintro ⟨c, o, e, he⟩; exact SpawnResult.noConfusion he)
  | output c o e => exact iff_of_true rfl ⟨c, o, e, rfl⟩

theorem claim_C3_witness :
    sysC3.spawn ("rustc") ["--version"] = SpawnResult.output 1 ("") "bad invocation" ∧
    is_valid_executable sysC3 ("rustc") = true ∧
    sysC3.spawn ("cargo") ["--version"] = SpawnResult.launchError ∧
    is_valid_executable sysC3 ("cargo") = false :=
  ⟨by decide, (claim_C3 sysC3 ("rustc")).mpr ⟨1, "", "bad invocation", by decide⟩,
   by decide, by decide⟩

/-- Claim C4: with no override set and the bare name validating,
resolution returns the bare name itself, unchanged, and the fallback path
is never validated. -/
theorem claim_C4 (sys : Sys) (name : String)
    (hunset : sys.envVar (to_ascii_uppercase name) = EnvVarResult.unset)
    (hvalid : is_valid_executable sys name = true) :
    get_path_for_executable sys name = Except.ok name ∧
    validationTrace sys name = [name] := by
  constructor
  · simp [get_path_for_executable, readVar, hunset, hvalid]
  · simp [validationTrace, get_path_for_executable_traced, readVar, hunset, hvalid]

theorem claim_C4_witness :
    sysC4.envVar (to_ascii_uppercase ("cargo")) = EnvVarResult.unset ∧
    is_valid_executable sysC4 ("cargo") = true ∧
    (get_path_for_executable sysC4 ("cargo") = Except.ok ("cargo") ∧
     validationTrace sysC4 ("cargo") = ["cargo"]) :=
  ⟨by decide, by decide, claim_C4 sysC4 ("cargo") (by decide) (by decide)⟩

/-- Claim C5: with no override set, the bare name failing validation, a
known home directory, and `<home>/.cargo/bin/<name>` validating,
resolution returns exactly that full constructed path. -/
theorem claim_C5 (sys : Sys) (name home : String)
    (hunset : sys.envVar (to_ascii_uppercase name) = EnvVarResult.unset)
    (hbare : is_valid_executable sys name = false)
    (hhome : sys.homeDir = some home)
    (hfb : is_valid_executable sys (cargoBinPath home name) = true) :
    get_path_for_executable sys name = Except.ok (cargoBinPath home name) := by
  simp [get_path_for_executable, readVar, hunset, hbare, hhome, hfb]

theorem claim_C5_witness :
    sysC5.envVar (to_ascii_uppercase ("cargo")) = EnvVarResult.unset ∧
    is_valid_executable sysC5 ("cargo") = false ∧
    sysC5.homeDir = some ("/home/user") ∧
    is_valid_executable sysC5 (cargoBinPath ("/home/user") "cargo") = true ∧
    cargoBinPath ("/home/user") "cargo" = "/home/user/.cargo/bin/cargo" ∧
    get_path_for_executable sysC5 ("cargo") =
      Except.ok (cargoBinPath ("/home/user") "cargo") :=
  ⟨by decide, by decide, by decide, by decide, by decide,
   claim_C5 sysC5 ("cargo") "/home/user" (by decide) (by decide) (by decide) (by decide)⟩

/-- Claim C6: with no override set and with neither the bare name nor (for
any known home directory) the fallback path validating, resolution errors
with a message containing both the executable name and the override
variable name. -/
theorem claim_C6 (sys : Sys) (name : String)
    (hunset : sys.envVar (to_ascii_uppercase name) = EnvVarResult.unset)
    (hbare : is_valid_executable sys name = false)
    (hfb : ∀ home, sys.homeDir = some home →
      is_valid_executable sys (cargoBinPath home name) = false) :
    get_path_for_executable sys name =
      Except.error (notFoundMsg name (to_ascii_uppercase name)) ∧
    ∃ a b c, notFoundMsg name (to_ascii_uppercase name) =
      a ++ name ++ b ++ to_ascii_uppercase name ++ c := by
  constructor
  · cases hh : sys.homeDir with
    | some home =>
      simp [get_path_for_executable, readVar, hunset, hbare, hh, hfb home hh]
    | none => simp [get_path_for_executable, readVar, hunset, hbare, hh]
  · refine ⟨"Failed to find `",
      "` executable. Make sure `" ++ name ++ "` is in `$PATH`, or set `$",
      "` to point to a valid executable.", ?_⟩
    rw [notFoundMsg]
    rw [string_append_assoc ("Failed to find `" ++ name) _ name,
        string_append_assoc ("Failed to find `" ++ name)]

theorem claim_C6_witness :
    sysC6.envVar (to_ascii_uppercase ("cargo")) = EnvVarResult.unset ∧
    is_valid_executable sysC6 ("cargo") = false ∧
    is_valid_executable sysC6 (cargoBinPath ("/home/user") "cargo") = false ∧
    (get_path_for_executable sysC6 ("cargo") =
      Except.error (notFoundMsg ("cargo") (to_ascii_uppercase ("cargo"))) ∧
    ∃ a b c, notFoundMsg ("cargo") (to_ascii_uppercase ("cargo")) =
      a ++ "cargo" ++ b ++ to_ascii_uppercase ("cargo") ++ c) :=
  ⟨by decide, by decide, by decide,
   claim_C6 sysC6 ("cargo") (by decide) (by decide)
     (fun home hh => by
       have hhome : home = "/home/user" := by
         have := hh
         simp only [sysC6] at this
         exact (Option.some.inj this).symm
       rw [hhome]
       decide)⟩

/-- Claim C7 counterexample: the code derives the override variable with
ASCII-only uppercasing, so the non-ASCII lowercase letter in the name
`é` is left unchanged rather than uppercased to `É` as the spec-side
every-character uppercasing demands. -/
theorem claim_C7_counterexample :
    to_ascii_uppercase ("é") = "é" ∧ specUppercase ("é") = "É" ∧
    to_ascii_uppercase ("é") ≠ specUppercase ("é") := by
  refine ⟨by decide, by decide, by decide⟩

/-- Claim C7 amended: the override variable name is derived by uppercasing
every ASCII lowercase letter of the executable name (code point minus 32)
and leaving every other character — in particular every non-ASCII
character — unchanged; the derivation is a pure function of the name and
is idempotent. -/
theorem claim_C7_amended :
    (∀ s, to_ascii_uppercase (to_ascii_uppercase s) = to_ascii_uppercase s) ∧
    (∀ c, 128 ≤ c.toNat → to_ascii_upper_char c = c) ∧
    (∀ c, 97 ≤ c.toNat → c.toNat ≤ 122 → (to_ascii_upper_char c).toNat = c.toNat - 32) :=
  ⟨to_ascii_uppercase_idem,
   fun c h => to_ascii_upper_char_of_not_lower c (by omega),
   fun c h1 h2 => to_ascii_upper_char_toNat_of_lower c h1 h2⟩

theorem claim_C7_amended_witness :
    to_ascii_uppercase (to_ascii_uppercase ("crab-é")) = to_ascii_uppercase ("crab-é") ∧
    (128 ≤ ('é').toNat ∧ to_ascii_upper_char 'é' = 'é') ∧
    (97 ≤ ('c').toNat ∧ ('c').toNat ≤ 122 ∧ (to_ascii_upper_char 'c').toNat = ('c').toNat - 32) :=
  ⟨claim_C7_amended.1 ("crab-é"),
   ⟨by decide, claim_C7_amended.2.1 'é' (by decide)⟩,
   ⟨by decide, by decide, claim_C7_amended.2.2 'c' (by decide) (by decide)⟩⟩

/-- Claim C8 counterexample: when the executable name is itself an
absolute path, `PathBuf::push` makes the fallback candidate coincide with
the bare name, so the very same candidate is validated (and spawned)
twice in one call — refuting "each candidate is validated at most once". -/
theorem claim_C8_counterexample :
    validationTrace sysC8 ("/opt/tool") = ["/opt/tool", "/opt/tool"] ∧
    (validationTrace sysC8 ("/opt/tool")).count ("/opt/tool") = 2 := by
  refine ⟨by decide, by decide⟩

/-- Claim C8 amended: one resolution call performs at most two validation
attempts (each a single spawn): exactly one, on the override value, when
the override variable is set to a readable value, and otherwise first the
bare name and then possibly the fallback path; however, duplicate
candidates are not suppressed, so when the executable name is an absolute
path the bare name and the fallback candidate coincide and the same
candidate string can be validated twice. -/
theorem claim_C8_amended (sys : Sys) (name : String) :
    (validationTrace sys name).length ≤ 2 ∧
    (∀ v, readVar sys (to_ascii_uppercase name) = some v →
      validationTrace sys name = [v]) ∧
    (readVar sys (to_ascii_uppercase name) = none →
      (validationTrace sys name).head? = some name) := by
  refine ⟨?_, ?_, ?_⟩
  · simp only [validationTrace, get_path_for_executable_traced]
    repeat' split
    all_goals simp
  · intro v hv
    simp [validationTrace, get_path_for_executable_traced, hv]
    split <;> rfl
  · intro hv
    simp only [validationTrace, get_path_for_executable_traced, hv]
    repeat' split
    all_goals rfl

theorem claim_C8_amended_witness :
    (validationTrace sysC8 ("cargo")).length ≤ 2 ∧
    (readVar sysC8b (to_ascii_uppercase ("cargo")) = some ("/bad/path") ∧
      validationTrace sysC8b ("cargo") = ["/bad/path"]) ∧
    (readVar sysC8 (to_ascii_uppercase ("cargo")) = none ∧
      (validationTrace sysC8 ("cargo")).head? = some ("cargo")) :=
  ⟨(claim_C8_amended sysC8 ("cargo")).1,
   ⟨by decide, (claim_C8_amended sysC8b ("cargo")).2.1 ("/bad/path") (by decide)⟩,
   ⟨by decide, (claim_C8_amended sysC8 ("cargo")).2.2 (by decide)⟩⟩

/-- Claim C9: when the override variable is set to a non-Unicode value,
resolution behaves exactly as if the environment were empty: it falls
through to bare-name and fallback resolution (with the same validation
attempts) instead of failing with the configuration error. -/
theorem claim_C9 (sys : Sys) (name : String)
    (h : sys.envVar (to_ascii_uppercase name) = EnvVarResult.notUnicode) :
    get_path_for_executable sys name =
      get_path_for_executable { sys with envVar := fun _ => EnvVarResult.unset } name ∧
    validationTrace sys name =
      validationTrace { sys with envVar := fun _ => EnvVarResult.unset } name := by
  have h1 : readVar sys (to_ascii_uppercase name) = none := by
    simp [readVar, h]
  have h2 : readVar { sys with envVar := fun _ => EnvVarResult.unset }
      (to_ascii_uppercase name) = none := rfl
  constructor
  · simp only [get_path_for_executable, h1, h2]
    rfl
  · simp only [validationTrace, get_path_for_executable_traced, h1, h2]
    rfl

theorem claim_C9_witness :
    sysC9.envVar (to_ascii_uppercase ("cargo")) = EnvVarResult.notUnicode ∧
    (get_path_for_executable sysC9 ("cargo") =
      get_path_for_executable { sysC9 with envVar := fun _ => EnvVarResult.unset } ("cargo") ∧
    validationTrace sysC9 ("cargo") =
      validationTrace { sysC9 with envVar := fun _ => EnvVarResult.unset } ("cargo")) ∧
    get_path_for_executable sysC9 ("cargo") = Except.ok ("cargo") :=
  ⟨by decide, claim_C9 sysC9 ("cargo") (by decide), rfl⟩

/-- Claim C10: with no override set, the bare name failing validation and
no determinable home directory, resolution skips the fallback step (only
the bare name is ever validated) and returns the generic not-found error;
being a total function, it cannot panic. -/
theorem claim_C10 (sys : Sys) (name : String)
    (hunset : sys.envVar (to_ascii_uppercase name) = EnvVarResult.unset)
    (hbare : is_valid_executable sys name = false)
    (hnohome : sys.homeDir = none) :
    get_path_for_executable sys name =
      Except.error (notFoundMsg name (to_ascii_uppercase name)) ∧
    validationTrace sys name = [name] := by
  constructor
  · simp [get_path_for_executable, readVar, hunset, hbare, hnohome]
  · simp [validationTrace, get_path_for_executable_traced, readVar, hunset, hbare, hnohome]

theorem claim_C10_witness :
    sysC10.envVar (to_ascii_uppercase ("cargo")) = EnvVarResult.unset ∧
    is_valid_executable sysC10 ("cargo") = false ∧
    sysC10.homeDir = none ∧
    (get_path_for_executable sysC10 ("cargo") =
      Except.error (notFoundMsg ("cargo") (to_ascii_uppercase ("cargo"))) ∧
    validationTrace sysC10 ("cargo") = ["cargo"]) :=
  ⟨by decide, by decide, by decide,
   claim_C10 sysC10 ("cargo") (by decide) (by decide) (by decide)⟩

end RaEnv
